import Mathlib

/-!
Shallow embedding of the dataset quality-metrics and change-tracking core of
the reviewed Go program (src/main.go).

Conventions of the embedding:
* Go `float64` values are modelled by `GoFloat`: exact rationals plus the IEEE
  special values NaN and the two infinities.  Arithmetic on finite values is
  exact (rounding is not modelled); the special-value rules (division by zero,
  NaN propagation, NaN comparisons being false) follow IEEE-754, which is what
  Go float64 arithmetic implements.  All claim-relevant computations are either
  exact in float64 or concern the special values, so this is faithful.
* Go `time.Now()` is modelled by an explicit `now : Nat` parameter threaded
  into each operation.
* Go maps are modelled as association lists built in first-occurrence order of
  the keys; every consumer in the source is insensitive to map iteration order
  (sums, key sorting, min/max, keyed lookup), so the fixed order is faithful.
* Go runtime panics (slice index out of range, type-assertion failure,
  `reflect.Value.Interface` on the zero `Value`) are modelled by the
  `GoOutcome.panicked` constructor, which also carries the program state at the
  moment of the panic, since the Go code mutates the dataset in place before
  the panicking expression is evaluated.
-/

/-- Model of a Go `float64` value: an exact rational, NaN, or an infinity. -/
inductive GoFloat where
  | fin (q : ℚ)
  | nan
  | pinf
  | ninf
deriving DecidableEq, Repr

namespace GoFloat

/-- IEEE addition on the model (exact on finite values). -/
def add : GoFloat → GoFloat → GoFloat
  | .nan, _ => .nan
  | _, .nan => .nan
  | .pinf, .ninf => .nan
  | .ninf, .pinf => .nan
  | .pinf, _ => .pinf
  | _, .pinf => .pinf
  | .ninf, _ => .ninf
  | _, .ninf => .ninf
  | .fin a, .fin b => .fin (a + b)

/-- IEEE subtraction on the model (exact on finite values). -/
def sub : GoFloat → GoFloat → GoFloat
  | .nan, _ => .nan
  | _, .nan => .nan
  | .pinf, .pinf => .nan
  | .ninf, .ninf => .nan
  | .pinf, _ => .pinf
  | _, .pinf => .ninf
  | .ninf, _ => .ninf
  | _, .ninf => .pinf
  | .fin a, .fin b => .fin (a - b)

/-- IEEE multiplication on the model (exact on finite values). -/
def mul : GoFloat → GoFloat → GoFloat
  | .nan, _ => .nan
  | _, .nan => .nan
  | .pinf, .pinf => .pinf
  | .pinf, .ninf => .ninf
  | .ninf, .pinf => .ninf
  | .ninf, .ninf => .pinf
  | .pinf, .fin b => if b = 0 then .nan else if 0 < b then .pinf else .ninf
  | .fin a, .pinf => if a = 0 then .nan else if 0 < a then .pinf else .ninf
  | .ninf, .fin b => if b = 0 then .nan else if 0 < b then .ninf else .pinf
  | .fin a, .ninf => if a = 0 then .nan else if 0 < a then .ninf else .pinf
  | .fin a, .fin b => .fin (a * b)

/-- IEEE division on the model: `0/0 = NaN`, `x/0 = ±∞` for finite `x ≠ 0`
(the model has only a positive zero, as do all divisors in the program). -/
def div : GoFloat → GoFloat → GoFloat
  | .nan, _ => .nan
  | _, .nan => .nan
  | .pinf, .pinf => .nan
  | .pinf, .ninf => .nan
  | .ninf, .pinf => .nan
  | .ninf, .ninf => .nan
  | .pinf, .fin b => if 0 ≤ b then .pinf else .ninf
  | .ninf, .fin b => if 0 ≤ b then .ninf else .pinf
  | .fin _, .pinf => .fin 0
  | .fin _, .ninf => .fin 0
  | .fin a, .fin b =>
      if b = 0 then (if a = 0 then .nan else if 0 < a then .pinf else .ninf)
      else .fin (a / b)

/-- IEEE absolute value (`math.Abs`). -/
def absF : GoFloat → GoFloat
  | .nan => .nan
  | .pinf => .pinf
  | .ninf => .pinf
  | .fin a => .fin |a|

/-- IEEE strict comparison as Go evaluates `a < b`: false whenever either side
is NaN. -/
def ltF : GoFloat → GoFloat → Bool
  | .nan, _ => false
  | _, .nan => false
  | .ninf, .ninf => false
  | .ninf, _ => true
  | _, .ninf => false
  | .pinf, _ => false
  | _, .pinf => true
  | .fin a, .fin b => decide (a < b)

end GoFloat

/-- One audit-trail entry for a single field edit (struct `ChangeRecord`). -/
structure ChangeRecord where
  timestamp : Nat
  user : String
  field : String
  oldValue : String
  newValue : String
deriving DecidableEq, Repr

/-- One annotated example (struct `DataItem`). -/
structure DataItem where
  id : Nat
  text : String
  category : String
  tags : List String
  label : String
  confidence : ℚ
  userVerified : Bool
  modelPreds : List (String × ℚ)
  lastUpdated : Nat
  version : Nat
  verifiedBy : String
  reviewStatus : String
  history : List ChangeRecord
deriving DecidableEq, Repr

/-- Collection-level snapshot (struct `DatasetMetadata`). -/
structure DatasetMetadata where
  name : String
  version : Nat
  lastModified : Nat
  totalItems : Nat
  verifiedItems : Nat
  labels : List String
  categories : List String
  tags : List String
deriving DecidableEq, Repr

/-- Derived statistics (struct `MetricsData`). -/
structure MetricsData where
  accuracy : GoFloat
  f1Score : GoFloat
  datasetSize : Nat
  verifiedPct : GoFloat
  labelDistribution : List (String × Nat)
  qualityScore : GoFloat
  biasMetrics : List (String × GoFloat)
deriving DecidableEq, Repr

/-- The state held by struct `DataManager`. -/
structure DataManager where
  dataset : List DataItem
  metadata : DatasetMetadata
  metrics : MetricsData
  backupPath : String
  currentUser : String
deriving DecidableEq, Repr

/-- `NewDataManager`: empty dataset, metadata version 1; the remaining fields
take the Go zero values (zero-valued metrics, empty maps, empty strings). -/
def NewDataManager : DataManager :=
  { dataset := []
    metadata :=
      { name := "", version := 1, lastModified := 0, totalItems := 0,
        verifiedItems := 0, labels := [], categories := [], tags := [] }
    metrics :=
      { accuracy := .fin 0, f1Score := .fin 0, datasetSize := 0,
        verifiedPct := .fin 0, labelDistribution := [], qualityScore := .fin 0,
        biasMetrics := [] }
    backupPath := "backups/"
    currentUser := "" }

/-- The labels of all items, in dataset order. -/
def datasetLabels (d : List DataItem) : List String :=
  d.map (fun it => it.label)

/-- The Go map `labelCounts` built by ranging over the dataset: keys are the
distinct labels (in first-occurrence order), values the occurrence counts. -/
def labelCounts (d : List DataItem) : List (String × Nat) :=
  (datasetLabels d).dedup.map (fun l => (l, (datasetLabels d).count l))

/-- `mapKeys`, specialised to string keys as every call site has: the keys of
the map, sorted ascending (sort.Slice with lexicographic comparison; for
strings, fmt.Sprint is the identity and Go byte order agrees with code-point
order on UTF-8 data). -/
def mapKeys (keys : List String) : List String :=
  keys.insertionSort (fun a b => a ≤ b)

/-- `calculateDistributionScore`: 0 on an empty count map, otherwise
`(1 - variance/expected^2) * 100` computed with float operations. -/
def calculateDistributionScore (counts : List (String × Nat)) : GoFloat :=
  if counts.length = 0 then .fin 0
  else
    let total : Nat := (counts.map (fun p => p.2)).sum
    let expected : GoFloat := GoFloat.div (.fin total) (.fin counts.length)
    let deviation : GoFloat :=
      counts.foldl
        (fun acc p =>
          GoFloat.add acc
            (GoFloat.mul (GoFloat.sub (.fin p.2) expected)
              (GoFloat.sub (.fin p.2) expected)))
        (.fin 0)
    let deviation := GoFloat.div deviation (.fin counts.length)
    let maxDeviation := GoFloat.mul expected expected
    GoFloat.mul (GoFloat.sub (.fin 1) (GoFloat.div deviation maxDeviation)) (.fin 100)

/-- Total text length (in bytes, Go `len` on a string) of the items bearing a
label: the value of the Go `textLengths` accumulator map at that label. -/
def labelTextLen (d : List DataItem) (l : String) : ℚ :=
  ((((d.filter (fun it => it.label == l)).map (fun it => it.text.utf8ByteSize)).sum : Nat) : ℚ)

/-- Key stem of the per-label average-length entries in the bias map. -/
def tlKey : String := "text_length_"

/-- `calculateBiasMetrics`: one `text_length_<label>` entry per label with a
positive count, plus the `distribution_bias` entry (mean absolute deviation of
the label shares from the uniform share). -/
def calculateBiasMetrics (dataset : List DataItem) : List (String × GoFloat) :=
  let lc := labelCounts dataset
  let total := dataset.length
  let expectedPct := GoFloat.div (.fin 1) (.fin lc.length)
  let bias :=
    lc.foldl
      (fun acc p =>
        GoFloat.add acc
          (GoFloat.absF (GoFloat.sub (GoFloat.div (.fin p.2) (.fin total)) expectedPct)))
      (.fin 0)
  let tl :=
    lc.filterMap
      (fun p =>
        if 0 < p.2 then
          some (tlKey ++ p.1, GoFloat.div (.fin (labelTextLen dataset p.1)) (.fin p.2))
        else none)
  tl ++ [("distribution_bias", GoFloat.div bias (.fin lc.length))]

/-- `UpdateMetrics`: verified percentage, label distribution, quality score and
bias metrics, computed from the current metadata and the label-count map. -/
def UpdateMetrics (dm : DataManager) (lc : List (String × Nat)) : DataManager :=
  let verifiedPct :=
    GoFloat.mul
      (GoFloat.div (.fin dm.metadata.verifiedItems) (.fin dm.metadata.totalItems))
      (.fin 100)
  let distScore := calculateDistributionScore lc
  { dm with
    metrics :=
      { dm.metrics with
        datasetSize := dm.dataset.length
        verifiedPct := verifiedPct
        labelDistribution := lc
        qualityScore := GoFloat.div (GoFloat.add verifiedPct distScore) (.fin 2)
        biasMetrics := calculateBiasMetrics dm.dataset } }

/-- `UpdateMetadata`: full rescan of the dataset producing counts and the three
sorted, deduplicated derived sets, then metric recomputation. -/
def UpdateMetadata (dm : DataManager) (now : Nat) : DataManager :=
  let lc := labelCounts dm.dataset
  let dm1 :=
    { dm with
      metadata :=
        { dm.metadata with
          lastModified := now
          totalItems := dm.dataset.length
          verifiedItems := (dm.dataset.filter (fun it => it.userVerified)).length
          labels := mapKeys (lc.map (fun p => p.1))
          categories := mapKeys (dm.dataset.map (fun it => it.category)).dedup
          tags := mapKeys ((dm.dataset.map (fun it => it.tags)).flatten).dedup } }
  UpdateMetrics dm1 lc

/-- A value passed through the `map[string]interface{}` update argument: the
source asserts `string` for label and category and `[]string` for tags. -/
inductive GoValue where
  | str (s : String)
  | strList (l : List String)
deriving DecidableEq, Repr

/-- `fmt.Sprintf` with verb `%v` on an update value (Go prints a string slice
as its elements between brackets, separated by spaces). -/
def goSprintValue : GoValue → String
  | .str s => s
  | .strList l => "[" ++ String.intercalate " " l ++ "]"

/-- Result of a Go operation that can panic: either the final state, or the
panic message together with the state at the moment of the panic (the Go code
mutates the dataset in place, so mutations made before the panicking
expression survive it). -/
inductive GoOutcome (α : Type) where
  | ok (a : α)
  | panicked (msg : String) (st : α)
deriving DecidableEq, Repr

/-- Whether an outcome is a panic. -/
def GoOutcome.isPanic {α : Type} : GoOutcome α → Bool
  | .ok _ => false
  | .panicked _ _ => true

/-- The state carried by an outcome (final state, or state at the panic). -/
def GoOutcome.state {α : Type} : GoOutcome α → α
  | .ok a => a
  | .panicked _ a => a

/-- The Go field names of struct `DataItem`, as `reflect` sees them.  Note
they are capitalised (exported Go fields), while `UpdateItem` passes the
lowercase map keys to `FieldByName`. -/
def goFieldNames : List String :=
  ["ID", "Text", "Category", "Tags", "Label", "Confidence", "UserVerified",
   "ModelPreds", "LastUpdated", "Version", "VerifiedBy", "ReviewStatus", "History"]

/-- Display form (`%v`) of one struct field by its exact Go name.
`reflect.Value.FieldByName` matches case-sensitively and yields the zero
`Value` (here: `none`) for any other name; calling `.Interface()` on the zero
`Value` panics. -/
def fieldByName (it : DataItem) (name : String) : Option String :=
  if name = "ID" then some (toString it.id)
  else if name = "Text" then some it.text
  else if name = "Category" then some it.category
  else if name = "Tags" then some ("[" ++ String.intercalate " " it.tags ++ "]")
  else if name = "Label" then some it.label
  else if name = "Confidence" then some (toString it.confidence)
  else if name = "UserVerified" then some (toString it.userVerified)
  else if name = "ModelPreds" then some "map[]"
  else if name = "LastUpdated" then some (toString it.lastUpdated)
  else if name = "Version" then some (toString it.version)
  else if name = "VerifiedBy" then some it.verifiedBy
  else if name = "ReviewStatus" then some it.reviewStatus
  else if name = "History" then some "[]"
  else none

/-- Panic message of `reflect.Value.Interface` on the zero `Value`. -/
def reflectPanicMsg : String :=
  "reflect: call of reflect.Value.Interface on zero Value"

/-- Panic message of an out-of-range slice index. -/
def indexPanicMsg : String := "runtime error: index out of range"

/-- Panic message of a failed interface type assertion. -/
def assertPanicMsg : String := "interface conversion"

/-- The switch statement of `UpdateItem` applied to one field: mutates the
matching field (panicking if the type assertion fails) and leaves the item
unchanged when no case matches. -/
def updateSwitch (it : DataItem) (field : String) (v : GoValue) : GoOutcome DataItem :=
  if field = "label" then
    match v with
    | .str s => .ok { it with label := s }
    | _ => .panicked assertPanicMsg it
  else if field = "tags" then
    match v with
    | .strList l => .ok { it with tags := l }
    | _ => .panicked assertPanicMsg it
  else if field = "category" then
    match v with
    | .str s => .ok { it with category := s }
    | _ => .panicked assertPanicMsg it
  else .ok it

/-- The body of the `range updates` loop of `UpdateItem`: per field, run the
switch, then build the `ChangeRecord`, whose old-value expression
`reflect.ValueOf(oldItem).FieldByName(field).Interface()` panics whenever
`field` is not an exact (capitalised) Go field name.  `oldItem` is the
snapshot taken before the loop. -/
def updateLoop (user : String) (now : Nat) (oldItem : DataItem) :
    DataItem → List (String × GoValue) → GoOutcome DataItem
  | it, [] => .ok it
  | it, (field, v) :: rest =>
    match updateSwitch it field v with
    | .panicked m st => .panicked m st
    | .ok it1 =>
      match fieldByName oldItem field with
      | none => .panicked reflectPanicMsg it1
      | some oldDisp =>
          updateLoop user now oldItem
            { it1 with
              history := it1.history ++
                [{ timestamp := now, user := user, field := field,
                   oldValue := oldDisp, newValue := goSprintValue v }] }
            rest

/-- `UpdateItem`: takes a pointer to the indexed item (panicking immediately,
with nothing changed, when the index is out of range), applies the update loop
in map-iteration order, then bumps the version, stamps the time and recomputes
metadata and metrics.  On a panic inside the loop the partially mutated item
has already been written through the pointer. -/
def UpdateItem (dm : DataManager) (index : Int)
    (updates : List (String × GoValue)) (now : Nat) : GoOutcome DataManager :=
  if h : 0 ≤ index ∧ index.toNat < dm.dataset.length then
    let i := index.toNat
    let oldItem := dm.dataset.get ⟨i, h.2⟩
    match updateLoop dm.currentUser now oldItem oldItem updates with
    | .panicked m it1 => .panicked m { dm with dataset := dm.dataset.set i it1 }
    | .ok it1 =>
        let it2 := { it1 with lastUpdated := now, version := it1.version + 1 }
        .ok (UpdateMetadata { dm with dataset := dm.dataset.set i it2 } now)
  else .panicked indexPanicMsg dm

/-- Whitespace as `strings.TrimSpace` sees it (the ASCII space classes plus
NEL and NBSP; the wider Unicode space classes never occur in the data this
program handles). -/
def goIsSpace (c : Char) : Bool :=
  c = ' ' || c = '\t' || c = '\n' || c = '\r' ||
  c = (Char.ofNat 11) || c = (Char.ofNat 12) ||
  c = (Char.ofNat 133) || c = (Char.ofNat 160)

/-- `strings.TrimSpace`: drop leading and trailing whitespace. -/
def goTrim (s : String) : String :=
  ⟨((s.data.dropWhile goIsSpace).reverse.dropWhile goIsSpace).reverse⟩

/-- `strings.ToLower` (character-wise lowering). -/
def goToLower (s : String) : String := ⟨s.data.map Char.toLower⟩

/-- Split a character list on a separator character; the empty list yields one
empty piece, matching `strings.Split` with a non-empty separator. -/
def splitChars (c : Char) : List Char → List (List Char)
  | [] => [[]]
  | a :: as =>
    if a = c then [] :: splitChars c as
    else
      match splitChars c as with
      | [] => [[a]]
      | h :: t => (a :: h) :: t

/-- `strings.Split` on the comma delimiter used for the tags cell. -/
def splitOnComma (s : String) : List String :=
  (splitChars ',' s.data).map (fun l => ⟨l⟩)

/-- Lowercased, trimmed header name, as the header map of `ImportCSV` keys
them. -/
def normHeader (s : String) : String := goToLower (goTrim s)

/-- Index of a recognised column: position of the last header whose
normalised form equals `name` (later duplicate headers overwrite earlier map
entries). -/
def headerIdx (headers : List String) (name : String) : Option Nat :=
  headers.enum.foldl
    (fun acc p => if normHeader p.2 = name then some p.1 else acc) none

/-- Build one `DataItem` from a CSV record: recognised columns are copied
(tags split on commas), everything else takes the Go zero value; the id is one
past the current store size. -/
def rowToItem (headers row : List String) (nextId now : Nat) : DataItem :=
  let getF := fun name => (headerIdx headers name).bind (fun i => row.get? i)
  { id := nextId
    text := (getF "text").getD ""
    category := (getF "category").getD ""
    label := (getF "label").getD ""
    tags := match getF "tags" with
            | some s => splitOnComma s
            | none => []
    confidence := 0
    userVerified := false
    modelPreds := []
    lastUpdated := now
    version := 0
    verifiedBy := ""
    reviewStatus := ""
    history := [] }

/-- Error message returned for a data row whose field count differs from the
header (the csv reader reports ErrFieldCount, wrapped by `ImportCSV`). -/
def csvRowErr : String := "error reading CSV row: wrong number of fields"

/-- Error message returned when the header row cannot be read. -/
def csvHeaderErr : String := "error reading CSV headers: EOF"

/-- The row-reading loop of `ImportCSV`: rows matching the header width are
appended to the dataset, the first malformed row aborts the loop with an error
while the dataset keeps the rows already appended, and only reaching the end
of the input triggers the metadata/metrics recomputation. -/
def importRows (headers : List String) (now : Nat) :
    DataManager → List (List String) → Option String × DataManager
  | dm, [] => (none, UpdateMetadata dm now)
  | dm, row :: rest =>
    if row.length = headers.length then
      importRows headers now
        { dm with dataset := dm.dataset ++ [rowToItem headers row (dm.dataset.length + 1) now] }
        rest
    else (some csvRowErr, dm)

/-- `ImportCSV` on an input already split into records: the first record is
the header row (its absence is the header read error), the rest are data
rows. -/
def ImportCSV (dm : DataManager) (input : List (List String)) (now : Nat) :
    Option String × DataManager :=
  match input with
  | [] => (some csvHeaderErr, dm)
  | headers :: rows => importRows headers now dm rows

/-- Bool prefix test on character lists (pattern first). -/
def charsStart : List Char → List Char → Bool
  | [], _ => true
  | _ :: _, [] => false
  | a :: as, b :: bs => a == b && charsStart as bs

/-- `strings.HasPrefix s pat`. -/
def strStarts (s pat : String) : Bool := charsStart pat.data s.data

/-- Go map read with the zero-value default for a missing key. -/
def lookupDefault (m : List (String × GoFloat)) (k : String) : GoFloat :=
  match m.find? (fun p => p.1 == k) with
  | some p => p.2
  | none => .fin 0

/-- Alert text for label-distribution imbalance. -/
def imbalanceMsg : String := "Significant imbalance in label distribution"

/-- Alert text for per-label text-length variation. -/
def lengthMsg : String := "Large variation in text lengths between classes"

/-- `minMax` over floats, as the source writes it (fold over all values
starting from the first; empty input gives (0, 0)). -/
def minMax (values : List GoFloat) : GoFloat × GoFloat :=
  match values with
  | [] => (.fin 0, .fin 0)
  | v :: _ =>
      values.foldl
        (fun mm x =>
          ((if GoFloat.ltF x mm.1 then x else mm.1),
           (if GoFloat.ltF mm.2 x then x else mm.2)))
        (v, v)

/-- The values of the `text_length_` entries of a bias-metrics map, in map
order. -/
def tlValues (metrics : List (String × GoFloat)) : List GoFloat :=
  (metrics.filter (fun p => strStarts p.1 tlKey)).map (fun p => p.2)

/-- `detectSignificantBias`: the imbalance alert when `distribution_bias`
exceeds 0.3, otherwise the length-variation alert when at least two per-label
average lengths exist and their max/min ratio exceeds 2, otherwise the empty
string. -/
def detectSignificantBias (metrics : List (String × GoFloat)) : String :=
  if GoFloat.ltF (.fin (3/10)) (lookupDefault metrics "distribution_bias") then
    imbalanceMsg
  else
    let lengths := tlValues metrics
    if 1 < lengths.length then
      if GoFloat.ltF (.fin 2) (GoFloat.div (minMax lengths).2 (minMax lengths).1) then
        lengthMsg
      else ""
    else ""

/-! ### Helper lemmas -/

theorem GoFloat.add_fin_fin (a b : ℚ) :
    GoFloat.add (.fin a) (.fin b) = .fin (a + b) := rfl

theorem GoFloat.sub_fin_fin (a b : ℚ) :
    GoFloat.sub (.fin a) (.fin b) = .fin (a - b) := rfl

theorem GoFloat.mul_fin_fin (a b : ℚ) :
    GoFloat.mul (.fin a) (.fin b) = .fin (a * b) := rfl

theorem GoFloat.div_fin_fin (a b : ℚ) (hb : b ≠ 0) :
    GoFloat.div (.fin a) (.fin b) = .fin (a / b) := by
  simp [GoFloat.div, hb]

theorem GoFloat.absF_fin (a : ℚ) : GoFloat.absF (.fin a) = .fin |a| := rfl

theorem GoFloat.ltF_fin_fin (a b : ℚ) :
    GoFloat.ltF (.fin a) (.fin b) = decide (a < b) := rfl

theorem foldl_add_fin {α : Type} (g : α → ℚ) :
    ∀ (l : List α) (q : ℚ),
      l.foldl (fun acc c => GoFloat.add acc (.fin (g c))) (.fin q)
        = .fin (q + (l.map g).sum)
  | [], q => by simp
  | c :: l, q => by
      simp only [List.foldl_cons, List.map_cons, List.sum_cons,
        GoFloat.add_fin_fin, foldl_add_fin g l (q + g c)]
      ring_nf

theorem charsStart_append : ∀ (p r : List Char), charsStart p (p ++ r) = true
  | [], _ => rfl
  | a :: as, r => by simp [charsStart, charsStart_append as r]

theorem strStarts_append (p s : String) : strStarts (p ++ s) p = true := by
  rw [strStarts, String.data_append]
  exact charsStart_append p.data s.data

theorem tl_entry_ne_db (l : String) : tlKey ++ l ≠ "distribution_bias" := by
  intro h
  have h1 : strStarts (tlKey ++ l) tlKey = true := strStarts_append tlKey l
  rw [h] at h1
  exact absurd h1 (by decide)

theorem mapKeys_nodup {l : List String} (h : l.Nodup) : (mapKeys l).Nodup :=
  ((List.perm_insertionSort _ l).nodup_iff).2 h

theorem mapKeys_sorted (l : List String) :
    List.Sorted (fun a b => a ≤ b) (mapKeys l) :=
  List.sorted_insertionSort _ l

theorem mem_mapKeys {l : List String} {s : String} : s ∈ mapKeys l ↔ s ∈ l :=
  (List.perm_insertionSort _ l).mem_iff

theorem labelCounts_keys (d : List DataItem) :
    (labelCounts d).map (fun p => p.1) = (datasetLabels d).dedup := by
  simp only [labelCounts, List.map_map, Function.comp]
  exact List.map_id _

/-! ### Spec-side definitions for the distribution-balance formula

These follow the wording of the specification, to be compared with the
source-side `calculateDistributionScore`. -/

/-- Spec wording: the mean count `expected = totalItems / labelCount`. -/
def specExpected (counts : List Nat) : ℚ :=
  (counts.sum : ℚ) / (counts.length : ℚ)

/-- Spec wording: the population variance of the counts around `expected`. -/
def specVariance (counts : List Nat) : ℚ :=
  ((counts.map (fun (c : Nat) => ((c : ℚ) - specExpected counts) ^ 2)).sum) / (counts.length : ℚ)

/-- Spec wording: `(1 - variance/expected^2) * 100`. -/
def specBalanceScore (counts : List Nat) : ℚ :=
  (1 - specVariance counts / (specExpected counts) ^ 2) * 100

/-! ### Concrete sample states used by the closed theorems -/

/-- A one-item store state used as concrete input. -/
def sampleItem : DataItem :=
  { id := 1, text := "hello", category := "Training", tags := ["t1"],
    label := "old", confidence := 0, userVerified := false, modelPreds := [],
    lastUpdated := 0, version := 3, verifiedBy := "", reviewStatus := "",
    history := [] }

/-- A `DataManager` holding `sampleItem` only. -/
def sampleDM : DataManager :=
  { NewDataManager with dataset := [sampleItem], currentUser := "alice" }

/-- An item of the biased concrete dataset: label pos, text of 10 bytes. -/
def cexItemPos : DataItem :=
  { id := 1, text := "aaaaaaaaaa", category := "", tags := [], label := "pos",
    confidence := 0, userVerified := false, modelPreds := [], lastUpdated := 0,
    version := 0, verifiedBy := "", reviewStatus := "", history := [] }

/-- An item of the biased concrete dataset: label neg, text of 3 bytes. -/
def cexItemNeg : DataItem :=
  { id := 10, text := "abc", category := "", tags := [], label := "neg",
    confidence := 0, userVerified := false, modelPreds := [], lastUpdated := 0,
    version := 0, verifiedBy := "", reviewStatus := "", history := [] }

/-- Ten items: nine pos (average text length 10) and one neg (average text
length 3); label shares 0.9/0.1 give distribution bias 0.4 and a text-length
ratio of 10/3. -/
def cexDataset : List DataItem := List.replicate 9 cexItemPos ++ [cexItemNeg]

/-! ### Claim theorems -/

/-- C1: the claim states that on an empty store `verifiedPct` is 0 (not NaN),
that no other metric computation is attempted, and that with zero distinct
labels the bias map is empty.  The code instead evaluates `0/0` to NaN for
`verifiedPct`, keeps computing (the quality score becomes NaN as well), and
returns a one-entry bias map mapping `distribution_bias` to NaN.  This theorem
evaluates the embedded code on the empty store, exhibiting the divergence. -/
theorem empty_store_metrics_are_nan :
    (UpdateMetadata NewDataManager 5).metrics.verifiedPct = GoFloat.nan
  ∧ (UpdateMetadata NewDataManager 5).metrics.qualityScore = GoFloat.nan
  ∧ (UpdateMetadata NewDataManager 5).metrics.biasMetrics
      = [("distribution_bias", GoFloat.nan)] := by
  refine ⟨rfl, rfl, rfl⟩

/-- C2: the claim states that `UpdateItem` fails with `UnknownFieldError` on
an unrecognised field, with `IndexOutOfRangeError` on an invalid index, and
rejects every failing update in full.  The code returns no errors at all: an
unrecognised field is skipped silently by the switch and then triggers a
reflect panic while building the change record; an invalid index triggers an
unrecoverable runtime panic; and a recognised field is mutated in place before
the change-record expression panics, so the update is partially applied.  The
three conjuncts evaluate the embedded code at each failing input. -/
theorem update_item_error_contract_broken :
    UpdateItem sampleDM 0 [("note", GoValue.str "x")] 7
      = .panicked reflectPanicMsg sampleDM
  ∧ UpdateItem sampleDM 2 [] 7 = .panicked indexPanicMsg sampleDM
  ∧ UpdateItem sampleDM 0 [("label", GoValue.str "new")] 7
      = .panicked reflectPanicMsg
          { sampleDM with dataset := [{ sampleItem with label := "new" }] } := by
  refine ⟨by decide, by decide, by decide⟩

/-- C3: the claim states that after `UpdateItem` on recognised fields the
version rose by exactly 1 and the history grew by the number of updated
fields.  The code panics while building the first change record (the reflect
lookup uses the lowercase key against capitalised Go field names), so after
the call on a one-field update the version is unchanged (still 3, not 4) and
the history is still empty, while the field value was already mutated. -/
theorem update_item_invariant_broken :
    (UpdateItem sampleDM 0 [("label", GoValue.str "new")] 7).isPanic = true
  ∧ ((UpdateItem sampleDM 0 [("label", GoValue.str "new")] 7).state.dataset.get? 0).map
        (fun it => it.version) = some 3
  ∧ ((UpdateItem sampleDM 0 [("label", GoValue.str "new")] 7).state.dataset.get? 0).map
        (fun it => it.history.length) = some 0 := by
  refine ⟨by decide, by decide, by decide⟩

/-- C4: the claim states that the change-record capture succeeds for every
recognised field name.  `reflect.Value.FieldByName` matches the Go field names
case-sensitively; the struct fields are capitalised (`Label`, `Tags`,
`Category`) while `UpdateItem` passes the lowercase map keys, so the capture
yields the zero `Value` and panics for every recognised field name. -/
theorem record_capture_panics_on_recognised_fields :
    fieldByName sampleItem "label" = none
  ∧ fieldByName sampleItem "tags" = none
  ∧ fieldByName sampleItem "category" = none
  ∧ fieldByName sampleItem "Label" = some "old"
  ∧ (UpdateItem sampleDM 0 [("label", GoValue.str "pos")] 7).isPanic = true
  ∧ (UpdateItem sampleDM 0 [("tags", GoValue.strList ["a"])] 7).isPanic = true
  ∧ (UpdateItem sampleDM 0 [("category", GoValue.str "c")] 7).isPanic = true := by
  refine ⟨by decide, by decide, by decide, by decide, by decide, by decide, by decide⟩

/-- C7: Scenario A.  Importing `text="a",label="pos"` and `text="b",label="neg"`
into an empty store succeeds and yields label distribution {pos: 1, neg: 1},
distribution score 100 and verified percentage 0. -/
theorem scenario_a_import_two_rows :
    (ImportCSV NewDataManager [["text", "label"], ["a", "pos"], ["b", "neg"]] 0).1 = none
  ∧ (ImportCSV NewDataManager [["text", "label"], ["a", "pos"], ["b", "neg"]] 0).2.metrics.labelDistribution
      = [("pos", 1), ("neg", 1)]
  ∧ calculateDistributionScore
      (ImportCSV NewDataManager [["text", "label"], ["a", "pos"], ["b", "neg"]] 0).2.metrics.labelDistribution
      = .fin 100
  ∧ (ImportCSV NewDataManager [["text", "label"], ["a", "pos"], ["b", "neg"]] 0).2.metrics.verifiedPct
      = .fin 0 := by
  refine ⟨by decide, by decide, ?_, ?_⟩
  · have h2 : (ImportCSV NewDataManager [["text", "label"], ["a", "pos"], ["b", "neg"]] 0).2.metrics.labelDistribution
        = [("pos", 1), ("neg", 1)] := by decide
    rw [h2]
    norm_num [calculateDistributionScore, GoFloat.div, GoFloat.sub, GoFloat.mul, GoFloat.add]
  · norm_num [ImportCSV, importRows, UpdateMetadata, UpdateMetrics, rowToItem, headerIdx,
      normHeader, goTrim, goToLower, goIsSpace, splitOnComma, splitChars, labelCounts,
      datasetLabels, NewDataManager, GoFloat.div, GoFloat.mul]

/-- C5: after a metadata/metrics recomputation (the step every successful core
mutation ends with), `verifiedItems` equals the number of items with
`userVerified = true`, and the values of `labelDistribution` sum to
`totalItems` (every item contributes its label, the empty string included,
since `labelCounts` is keyed by the raw label of every item). -/
theorem recompute_counts_invariant (dm : DataManager) (now : Nat) :
    (UpdateMetadata dm now).metadata.verifiedItems
      = (dm.dataset.filter (fun it => it.userVerified)).length
  ∧ (((UpdateMetadata dm now).metrics.labelDistribution).map (fun p => p.2)).sum
      = (UpdateMetadata dm now).metadata.totalItems := by
  constructor
  · rfl
  · show ((labelCounts dm.dataset).map (fun p => p.2)).sum = dm.dataset.length
    have h := List.sum_map_count_dedup_eq_length (datasetLabels dm.dataset)
    simp only [labelCounts, List.map_map, Function.comp]
    simpa [datasetLabels] using h

/-- C9: after every metadata recomputation the derived sequences `labels`,
`categories` and `tags` are duplicate-free, sorted ascending by lexicographic
string order, and contain exactly the distinct values observed across the
items. -/
theorem recompute_derived_sets_sorted (dm : DataManager) (now : Nat) :
    ((UpdateMetadata dm now).metadata.labels.Nodup
      ∧ List.Sorted (fun a b => a ≤ b) (UpdateMetadata dm now).metadata.labels
      ∧ ∀ s, s ∈ (UpdateMetadata dm now).metadata.labels
          ↔ s ∈ dm.dataset.map (fun it => it.label))
  ∧ ((UpdateMetadata dm now).metadata.categories.Nodup
      ∧ List.Sorted (fun a b => a ≤ b) (UpdateMetadata dm now).metadata.categories
      ∧ ∀ s, s ∈ (UpdateMetadata dm now).metadata.categories
          ↔ s ∈ dm.dataset.map (fun it => it.category))
  ∧ ((UpdateMetadata dm now).metadata.tags.Nodup
      ∧ List.Sorted (fun a b => a ≤ b) (UpdateMetadata dm now).metadata.tags
      ∧ ∀ s, s ∈ (UpdateMetadata dm now).metadata.tags
          ↔ ∃ it ∈ dm.dataset, s ∈ it.tags) := by
  have hl : (UpdateMetadata dm now).metadata.labels
      = mapKeys ((datasetLabels dm.dataset).dedup) :=
    congrArg mapKeys (labelCounts_keys dm.dataset)
  refine ⟨⟨?_, ?_, ?_⟩, ⟨?_, ?_, ?_⟩, ⟨?_, ?_, ?_⟩⟩
  · rw [hl]; exact mapKeys_nodup (List.nodup_dedup _)
  · rw [hl]; exact mapKeys_sorted _
  · intro s
    rw [hl, mem_mapKeys, List.mem_dedup]
    exact Iff.rfl
  · exact mapKeys_nodup (List.nodup_dedup _)
  · exact mapKeys_sorted _
  · intro s
    show s ∈ mapKeys ((dm.dataset.map (fun it => it.category)).dedup) ↔ _
    rw [mem_mapKeys, List.mem_dedup]
  · exact mapKeys_nodup (List.nodup_dedup _)
  · exact mapKeys_sorted _
  · intro s
    show s ∈ mapKeys (((dm.dataset.map (fun it => it.tags)).flatten).dedup) ↔ _
    rw [mem_mapKeys, List.mem_dedup, List.mem_flatten]
    simp

/-- C6: on a non-empty label-count map (counts are positive, as every map
produced by counting is) the distribution-balance score equals
`(1 - variance/expected^2) * 100` with `expected` the mean count and the
population variance taken around it, exactly as the specification words it;
on an empty map the score is 0. -/
theorem distribution_score_matches_spec (counts : List (String × Nat))
    (hne : counts ≠ []) (hpos : ∀ p ∈ counts, 0 < p.2) :
    calculateDistributionScore counts
      = .fin (specBalanceScore (counts.map (fun p => p.2)))
  ∧ calculateDistributionScore [] = .fin 0 := by
  refine ⟨?_, rfl⟩
  have hn : counts.length ≠ 0 := by
    simpa [List.length_eq_zero] using hne
  have hnQ : (counts.length : ℚ) ≠ 0 := Nat.cast_ne_zero.mpr hn
  have hvpos : ∀ v ∈ counts.map (fun p => p.2), 0 < v := by
    intro v hv
    obtain ⟨p, hp, rfl⟩ := List.mem_map.mp hv
    exact hpos p hp
  have htot : (counts.map (fun p => p.2)).sum ≠ 0 := by
    have h := List.sum_pos (counts.map (fun p => p.2)) hvpos (by simpa using hne)
    omega
  have htotQ : (((counts.map (fun p => p.2)).sum : Nat) : ℚ) ≠ 0 := Nat.cast_ne_zero.mpr htot
  set n : Nat := counts.length with hndef
  set total : Nat := (counts.map (fun p => p.2)).sum with htdef
  set e : ℚ := (total : ℚ) / (n : ℚ) with hedef
  have he : e ≠ 0 := div_ne_zero htotQ hnQ
  have hee : e * e ≠ 0 := mul_ne_zero he he
  simp only [calculateDistributionScore, ← htdef, ← hndef, if_neg hn,
    GoFloat.div_fin_fin _ _ hnQ, ← hedef, GoFloat.sub_fin_fin, GoFloat.mul_fin_fin]
  rw [foldl_add_fin (fun p => (((p.2 : Nat) : ℚ) - e) * (((p.2 : Nat) : ℚ) - e)) counts 0]
  rw [GoFloat.div_fin_fin _ _ hnQ, GoFloat.div_fin_fin _ _ hee, GoFloat.sub_fin_fin,
    GoFloat.mul_fin_fin]
  simp only [specBalanceScore, specVariance, specExpected, List.length_map, List.map_map,
    ← htdef, ← hndef, ← hedef]
  simp only [Function.comp, pow_two, zero_add]
  rfl

/-- Witness for C6 at the concrete count map {a: 1, b: 3}: the hypotheses
hold and the score matches the spec formula (here 75). -/
theorem distribution_score_matches_spec_witness :
    (([("a", 1), ("b", 3)] : List (String × Nat)) ≠ []
      ∧ ∀ p ∈ ([("a", 1), ("b", 3)] : List (String × Nat)), 0 < p.2)
  ∧ calculateDistributionScore [("a", 1), ("b", 3)]
      = .fin (specBalanceScore [1, 3]) :=
  ⟨⟨by decide, by decide⟩,
    (distribution_score_matches_spec [("a", 1), ("b", 3)] (by decide) (by decide)).1⟩

/-- The items a run of good rows appends: ids continue one past the current
store size. -/
def importItems (headers : List String) (now : Nat) (startLen : Nat) :
    List (List String) → List DataItem
  | [] => []
  | row :: rest =>
      rowToItem headers row (startLen + 1) now :: importItems headers now (startLen + 1) rest

theorem importRows_stops_at_bad_row (headers : List String) (now : Nat)
    (badRow : List String) (rest : List (List String))
    (hbad : badRow.length ≠ headers.length) :
    ∀ (good : List (List String)) (dm : DataManager),
      (∀ r ∈ good, r.length = headers.length) →
      importRows headers now dm (good ++ badRow :: rest)
        = (some csvRowErr,
           { dm with dataset := dm.dataset ++ importItems headers now dm.dataset.length good })
  | [], dm, _ => by
      simp [importRows, importItems, if_neg hbad]
  | row :: good, dm, hgood => by
      have hrow : row.length = headers.length := hgood row (List.mem_cons_self row good)
      have ih := importRows_stops_at_bad_row headers now badRow rest hbad good
        { dm with dataset := dm.dataset ++ [rowToItem headers row (dm.dataset.length + 1) now] }
        (fun r hr => hgood r (List.mem_cons_of_mem row hr))
      rw [List.cons_append, importRows, if_pos hrow, ih]
      simp [importItems, List.append_assoc, List.length_append]

/-- C10: when `ImportCSV` hits a malformed data row it returns the row error,
the items parsed from the earlier rows of the same call are already appended
to the dataset, and the metadata/metrics recomputation at the end of the loop
is skipped, so `metadata` and `metrics` still hold their pre-import values. -/
theorem import_error_keeps_partial_append (dm : DataManager)
    (headers badRow : List String) (good rest : List (List String)) (now : Nat)
    (hgood : ∀ r ∈ good, r.length = headers.length)
    (hbad : badRow.length ≠ headers.length) :
    ImportCSV dm (headers :: (good ++ badRow :: rest)) now
      = (some csvRowErr,
         { dm with dataset := dm.dataset ++ importItems headers now dm.dataset.length good })
  ∧ (ImportCSV dm (headers :: (good ++ badRow :: rest)) now).2.metadata = dm.metadata
  ∧ (ImportCSV dm (headers :: (good ++ badRow :: rest)) now).2.metrics = dm.metrics := by
  have h := importRows_stops_at_bad_row headers now badRow rest hbad good dm hgood
  refine ⟨h, ?_, ?_⟩ <;> rw [ImportCSV, h]

/-- Witness for C10: importing a good row `["a"]` followed by the malformed
row `["x", "y"]` under the header `["text"]` returns the row error, keeps the
one parsed item, and leaves metadata and metrics untouched. -/
theorem import_error_keeps_partial_append_witness :
    ImportCSV NewDataManager [["text"], ["a"], ["x", "y"]] 0
      = (some csvRowErr,
         { NewDataManager with
            dataset := NewDataManager.dataset
              ++ importItems ["text"] 0 NewDataManager.dataset.length [["a"]] })
  ∧ (ImportCSV NewDataManager [["text"], ["a"], ["x", "y"]] 0).2.metadata
      = NewDataManager.metadata :=
  ⟨(import_error_keeps_partial_append NewDataManager ["text"] ["x", "y"] [["a"]] [] 0
      (by decide) (by decide)).1,
   (import_error_keeps_partial_append NewDataManager ["text"] ["x", "y"] [["a"]] [] 0
      (by decide) (by decide)).2.1⟩

/-- C8 counterexample: on a concrete ten-item dataset (nine pos items of text
length 10, one neg item of text length 3) the per-label average text lengths
are 10 and 3, so max/min exceeds 2, yet the alert returned is the imbalance
message, not the length-variation message: the claim that the length alert
fires whenever max/min > 2 is false as stated, because the imbalance check
(here distribution bias 0.4 > 0.3) preempts it. -/
theorem bias_length_alert_preempted_cex :
    GoFloat.ltF (.fin 2)
      (GoFloat.div (minMax (tlValues (calculateBiasMetrics cexDataset))).2
        (minMax (tlValues (calculateBiasMetrics cexDataset))).1) = true
  ∧ detectSignificantBias (calculateBiasMetrics cexDataset) = imbalanceMsg
  ∧ imbalanceMsg ≠ lengthMsg := by
  have hlc : labelCounts cexDataset = [("pos", 9), ("neg", 1)] := by decide
  have hlen : cexDataset.length = 10 := by decide
  have hp : labelTextLen cexDataset "pos" = 90 := by decide
  have hn : labelTextLen cexDataset "neg" = 3 := by decide
  have ha1 : (tlKey ++ "pos" : String) = "text_length_pos" := by decide
  have ha2 : (tlKey ++ "neg" : String) = "text_length_neg" := by decide
  have hs1 : strStarts "text_length_pos" tlKey = true := by decide
  have hs2 : strStarts "text_length_neg" tlKey = true := by decide
  have hs3 : strStarts "distribution_bias" tlKey = false := by decide
  have hb1 : ("text_length_pos" == "distribution_bias") = false := by decide
  have hb2 : ("text_length_neg" == "distribution_bias") = false := by decide
  have hb3 : ("distribution_bias" == "distribution_bias") = true := by decide
  have hbm : calculateBiasMetrics cexDataset
      = [("text_length_pos", .fin 10), ("text_length_neg", .fin 3),
         ("distribution_bias", .fin (2/5))] := by
    simp only [calculateBiasMetrics, hlc, hlen, hp, hn]
    norm_num [List.filterMap_cons, ha1, ha2, hp, hn, GoFloat.div_fin_fin,
      GoFloat.add_fin_fin, GoFloat.sub_fin_fin, GoFloat.absF_fin, abs_of_nonneg]
  refine ⟨?_, ?_, by decide⟩
  · rw [hbm]
    norm_num [tlValues, hs1, hs2, hs3, minMax, GoFloat.ltF_fin_fin, GoFloat.div_fin_fin]
  · rw [hbm]
    norm_num [detectSignificantBias, lookupDefault, List.find?, hb1, hb2, hb3,
      GoFloat.ltF_fin_fin]

/-- C8 amended: the imbalance alert fires exactly when `distribution_bias`
exceeds 0.3; the length-variation alert fires when max/min of the per-label
average lengths exceeds 2 and the imbalance alert has not preempted it; the
length-variation alert never fires when the dataset has fewer than two
distinct labels; and on a non-empty single-label dataset `distribution_bias`
is exactly 0 with no division by zero. -/
theorem bias_alert_rules :
    (∀ m : List (String × GoFloat),
        detectSignificantBias m = imbalanceMsg
          ↔ GoFloat.ltF (.fin (3/10)) (lookupDefault m "distribution_bias") = true)
  ∧ (∀ m : List (String × GoFloat),
        GoFloat.ltF (.fin (3/10)) (lookupDefault m "distribution_bias") = false
        → 1 < (tlValues m).length
        → GoFloat.ltF (.fin 2)
            (GoFloat.div (minMax (tlValues m)).2 (minMax (tlValues m)).1) = true
        → detectSignificantBias m = lengthMsg)
  ∧ (∀ d : List DataItem, (labelCounts d).length < 2
        → detectSignificantBias (calculateBiasMetrics d) ≠ lengthMsg)
  ∧ (∀ d : List DataItem, d ≠ [] → (labelCounts d).length = 1
        → lookupDefault (calculateBiasMetrics d) "distribution_bias" = .fin 0) := by
  refine ⟨?_, ?_, ?_, ?_⟩
  · intro m
    cases hb : GoFloat.ltF (.fin (3/10)) (lookupDefault m "distribution_bias") with
    | true =>
        simp [detectSignificantBias, hb]
    | false =>
        simp only [detectSignificantBias, hb, Bool.false_eq_true, if_false]
        constructor
        · intro hres
          split_ifs at hres <;> exact absurd hres (by decide)
        · intro htrue
          exact absurd htrue (by decide)
  · intro m h1 h2 h3
    simp only [detectSignificantBias, h1, Bool.false_eq_true, if_false]
    rw [if_pos h2, if_pos h3]
  · intro d hlt
    have hdb : strStarts "distribution_bias" tlKey = false := by decide
    have hlen2 : (tlValues (calculateBiasMetrics d)).length ≤ (labelCounts d).length := by
      simp only [tlValues, calculateBiasMetrics, List.filter_append, List.filter_singleton,
        hdb, Bool.cond_false, Bool.false_eq_true, if_false, List.append_nil, List.length_map]
      exact le_trans (List.length_filter_le _ _) (List.length_filterMap_le _ _)
    intro hres
    cases hb : GoFloat.ltF (.fin (3/10))
        (lookupDefault (calculateBiasMetrics d) "distribution_bias") with
    | true =>
        simp only [detectSignificantBias, hb, if_true] at hres
        exact absurd hres (by decide)
    | false =>
        simp only [detectSignificantBias, hb, Bool.false_eq_true, if_false] at hres
        have hnot : ¬ (1 < (tlValues (calculateBiasMetrics d)).length) := by omega
        rw [if_neg hnot] at hres
        exact absurd hres (by decide)
  · intro d hne hlen1
    have hd : (datasetLabels d).dedup.length = 1 := by
      have hx : (labelCounts d).length = (datasetLabels d).dedup.length := by
        simp [labelCounts]
      omega
    obtain ⟨l, hl⟩ := List.length_eq_one.mp hd
    have hall : ∀ x ∈ datasetLabels d, x = l := by
      intro x hx
      have hxd : x ∈ (datasetLabels d).dedup := List.mem_dedup.mpr hx
      rw [hl] at hxd
      simpa using hxd
    have hcount : (datasetLabels d).count l = (datasetLabels d).length :=
      List.count_eq_length.mpr (fun b hb => (hall b hb).symm)
    have hlc : labelCounts d = [(l, d.length)] := by
      rw [labelCounts, hl]
      simp only [List.map_cons, List.map_nil]
      rw [hcount]
      simp [datasetLabels]
    have hdpos : d.length ≠ 0 := by
      cases d with
      | nil => exact absurd rfl hne
      | cons a t => simp
    have hdlen : ((d.length : Nat) : ℚ) ≠ 0 := Nat.cast_ne_zero.mpr hdpos
    have hbne : ((tlKey ++ l) == "distribution_bias") = false :=
      beq_eq_false_iff_ne.mpr (tl_entry_ne_db l)
    simp only [calculateBiasMetrics, hlc, List.length_cons, List.length_nil, Nat.cast_one,
      List.foldl_cons, List.foldl_nil, List.filterMap_cons, List.filterMap_nil]
    rw [if_pos (by omega : 0 < d.length)]
    simp only [lookupDefault, List.cons_append, List.nil_append, List.find?, hbne]
    norm_num [GoFloat.div_fin_fin, GoFloat.add_fin_fin, GoFloat.sub_fin_fin,
      GoFloat.absF_fin, GoFloat.div_fin_fin _ _ hdlen, div_self hdlen]

/-- Witness for the amended C8 rules at concrete inputs: a metrics map with
bias 1 raises the imbalance alert, a map with average lengths 1 and 10 and no
bias entry raises the length alert, and a one-item (single-label) dataset
raises no length alert and has distribution bias exactly 0. -/
theorem bias_alert_rules_witness :
    detectSignificantBias [("distribution_bias", GoFloat.fin 1)] = imbalanceMsg
  ∧ detectSignificantBias [("text_length_a", GoFloat.fin 1), ("text_length_b", GoFloat.fin 10)]
      = lengthMsg
  ∧ detectSignificantBias (calculateBiasMetrics [cexItemNeg]) ≠ lengthMsg
  ∧ lookupDefault (calculateBiasMetrics [cexItemNeg]) "distribution_bias" = GoFloat.fin 0 := by
  have e1 : ("distribution_bias" == "distribution_bias") = true := by decide
  have e2 : ("text_length_a" == "distribution_bias") = false := by decide
  have e3 : ("text_length_b" == "distribution_bias") = false := by decide
  have hmm : minMax (tlValues [("text_length_a", GoFloat.fin 1), ("text_length_b", GoFloat.fin 10)])
      = (GoFloat.fin 1, GoFloat.fin 10) := by decide
  refine ⟨?_, ?_, ?_, ?_⟩
  · exact (bias_alert_rules.1 _).mpr
      (by norm_num [lookupDefault, List.find?, e1, GoFloat.ltF_fin_fin])
  · refine bias_alert_rules.2.1 _ ?_ ?_ ?_
    · norm_num [lookupDefault, List.find?, e2, e3, GoFloat.ltF_fin_fin]
    · decide
    · rw [hmm]
      norm_num [GoFloat.div_fin_fin, GoFloat.ltF_fin_fin]
  · exact bias_alert_rules.2.2.1 [cexItemNeg] (by decide)
  · exact bias_alert_rules.2.2.2 [cexItemNeg] (by decide) (by decide)
